import Mathlib

/-!
# Column selection panel of sngrep (`src/ncurses/ui_column_select.c`)

A shallow embedding of the panel's item list (toggle / move / seeding at
creation / commit), of the button form's focus handling and of the
configuration writer, followed by the properties established about them.

Conventions of the embedding
* `info->items` is a C array of `ITEM *` closed by a `NULL` entry.  It is
  embedded as the `List ITEM` of its entries before the terminator, so that
  `item_count (info->menu)` is the length of that list.
* An `ITEM` carries the fields the panel reads: its name (`"[ ]"` or `"[*]"`),
  its description, its user pointer (the attribute name) and the value of
  `item_index`: the index the menu library gave it when the item array was
  connected to the menu, `ERR` for an item that is not connected.
* The menu library refuses `set_menu_items` on a posted menu, so the functions
  that call it take the flag `posted`.  The menu is not posted while
  `column_select_create` seeds the items (`post_menu` comes after the loop) and
  it is posted whenever a key is handled.
* A C function that may touch `info->items` outside the entries of the list
  returns an `Option`; `none` stands for such an access (undefined behaviour
  in C).
* C strings are embedded as `String`; comparisons look at the characters.
-/

namespace ColumnSelect

/-! ## Items and the menu library -/

/-- The error value `ERR` of the curses library. -/
def ERR : Int := -1

/-- An ncurses menu item as far as the panel looks at it; `index` is what
`item_index` returns for it. -/
structure ITEM where
  name : String
  description : String
  userptr : String
  index : Int
deriving DecidableEq, Repr

/-- Library call `new_item (name, description)`: a fresh item, not connected to a menu,
for which `item_index` returns `ERR`. -/
def new_item (name description : String) : ITEM :=
  { name := name, description := description, userptr := "", index := ERR }

/-- Library call `set_item_userptr (item, ptr)`. -/
def set_item_userptr (item : ITEM) (ptr : String) : ITEM :=
  { item with userptr := ptr }

/-- Library call `item_name (item)`. -/
def item_name (item : ITEM) : String := item.name

/-- Library call `item_description (item)`. -/
def item_description (item : ITEM) : String := item.description

/-- Library call `item_userptr (item)`. -/
def item_userptr (item : ITEM) : String := item.userptr

/-- Library call `item_index (item)`: the index the item received when it was connected,
`ERR` for an item that is not connected. -/
def item_index (item : ITEM) : Int := item.index

/-- Library call `item_count (menu)`: the number of entries before the `NULL` terminator. -/
def item_count (items : List ITEM) : Nat := items.length

/-- Numbering of the items of an array from a start index, as the menu
library does when it connects an item array to a menu. -/
def connect_items : Nat → List ITEM → List ITEM
  | _, [] => []
  | k, item :: rest => { item with index := (k : Int) } :: connect_items (k + 1) rest

/-- Library call `set_menu_items (menu, items)`.  On a posted menu the library refuses
the call (`E_POSTED`) and no item changes.  Otherwise the items are connected
to the menu and item number `k` of the array gets index `k`. -/
def set_menu_items (posted : Bool) (items : List ITEM) : List ITEM :=
  if posted then items else connect_items 0 items

/-- Library call `new_menu (items)`: a new menu, not posted, with the items connected. -/
def new_menu (items : List ITEM) : List ITEM := connect_items 0 items

/-- Test `strncmp (s1, s2, n) == 0`: the first `n` characters of the two strings
(or the whole strings when shorter) are the same. -/
def strncmp_eq (s1 s2 : String) (n : Nat) : Bool :=
  s1.data.take n == s2.data.take n

/-- Test `strcmp (s1, s2) == 0`. -/
def strcmp_eq (s1 s2 : String) : Bool := s1 == s2

/-! ## `column_select_toggle_item` and `column_select_move_item` -/

/-- Function `column_select_toggle_item (ui, item)`, `posted` telling whether the menu is
posted.  The entry `info->items[item_index (item)]` is replaced by a new item
with the other mark, the same description and the same user pointer; the
array is handed to the menu again.  The result is `none` when that entry is
not an entry of the list. -/
def column_select_toggle_item (posted : Bool) (items : List ITEM) (item : ITEM) :
    Option (List ITEM) :=
  let pos := item_index item
  -- Change item name
  let fresh :=
    if strncmp_eq (item_name item) "[ ]" 3 then
      new_item "[*]" (item_description item)
    else
      new_item "[ ]" (item_description item)
  if 0 ≤ pos ∧ pos < (items.length : Int) then
    -- Restore menu item
    some (set_menu_items posted
      (items.set pos.toNat (set_item_userptr fresh (item_userptr item))))
  else
    none

/-- Function `column_select_move_item (ui, item, pos)`, `posted` telling whether the menu
is posted.  Only `pos == item_count` and `pos < 0` return early.  Otherwise
`info->items[pos]` is read and both `info->items[item_index (item)]` and
`info->items[pos]` are written; `none` when one of them is not an entry of the
list. -/
def column_select_move_item (posted : Bool) (items : List ITEM) (item : ITEM) (pos : Int) :
    Option (List ITEM) :=
  -- Check we have a valid position
  if pos = (item_count items : Int) ∨ pos < 0 then
    some items
  else
    -- Swap position with destination
    let item_pos := item_index item
    match items[pos.toNat]? with
    | none => none
    | some other =>
      if 0 ≤ item_pos ∧ item_pos < (items.length : Int) then
        some (set_menu_items posted ((items.set item_pos.toNat other).set pos.toNat item))
      else
        none

/-- Function `column_select_update_menu (ui)` as far as the item array goes: the menu is
unposted, the array is handed to the menu, which now connects it, and the
menu is posted again.  (The top row and the current item that the function
restores are not part of the embedding.) -/
def column_select_update_menu (items : List ITEM) : List ITEM :=
  set_menu_items false items

/-! ## The attribute catalog and the call list -/

/-- Modelled from the spec: the attribute catalog (`sip_attr_*`, declared
outside the examined file).  It is an ordered registry of fixed size whose
attributes have a name (the persistence token), a description, a title and a
preferred width; `from_name` is the lookup by name behind
`sip_attr_from_name`.  Attribute ids are the C `int` values `0` to
`SIP_ATTR_COUNT - 1`. -/
structure AttrCatalog where
  SIP_ATTR_COUNT : Nat
  name : Int → String
  description : Int → String
  title : Int → String
  width : Int → Int
  from_name : String → Int

/-- Catalog accessor `sip_attr_get_name (id)`. -/
def sip_attr_get_name (cat : AttrCatalog) (id : Int) : String := cat.name id

/-- Catalog accessor `sip_attr_get_description (id)`. -/
def sip_attr_get_description (cat : AttrCatalog) (id : Int) : String := cat.description id

/-- Catalog accessor `sip_attr_get_title (id)`. -/
def sip_attr_get_title (cat : AttrCatalog) (id : Int) : String := cat.title id

/-- Catalog accessor `sip_attr_get_width (id)`. -/
def sip_attr_get_width (cat : AttrCatalog) (id : Int) : Int := cat.width id

/-- Catalog lookup `sip_attr_from_name (name)`. -/
def sip_attr_from_name (cat : AttrCatalog) (name : String) : Int := cat.from_name name

/-- One column of the call list (`list_info->columns[i]`). -/
structure CallListColumn where
  id : Int
  attr : String
  title : String
  width : Int
deriving DecidableEq, Repr

/-- The call list's column table: `columns[0 .. columncnt - 1]`. -/
structure CallListInfo where
  columns : List CallListColumn
deriving DecidableEq, Repr

/-- The field `list_info->columncnt`. -/
def CallListInfo.columncnt (list_info : CallListInfo) : Nat := list_info.columns.length

/-- Modelled from the spec: `call_list_add_column (ui, id, attr, title, width)`
of the Column List View, defined outside the examined file: the column is
stored at `columns[columncnt]` and `columncnt` grows by one. -/
def call_list_add_column (list_info : CallListInfo) (id : Int) (attr title : String)
    (width : Int) : CallListInfo :=
  { columns := list_info.columns ++ [{ id := id, attr := attr, title := title, width := width }] }

/-! ## `column_select_create`: the item list of a new panel -/

/-- The first loop of `column_select_create`: one item `"[ ]"` per attribute id
`0 .. SIP_ATTR_COUNT - 1`, described by the attribute's description and
pointing to the attribute's name. -/
def create_items (cat : AttrCatalog) : List ITEM :=
  (List.range cat.SIP_ATTR_COUNT).map fun (attr_id : Nat) =>
    set_item_userptr (new_item "[ ]" (sip_attr_get_description cat (attr_id : Int)))
      (sip_attr_get_name cat (attr_id : Int))

/-- The inner loop of the seeding: starting at `attr_id`, the index of the
first of the next `todo` items whose user pointer is `attr`
(`strcmp (...) == 0`), if there is one. -/
def seed_search (items : List ITEM) (attr : String) : Nat → Nat → Option Nat
  | 0, _ => none
  | todo + 1, attr_id =>
    match items[attr_id]? with
    | none => none
    | some item =>
      if strcmp_eq (item_userptr item) attr then some attr_id
      else seed_search items attr todo (attr_id + 1)

/-- One turn of the outer loop of the seeding, for the call list column number
`column` with attribute name `attr`: the first item of that attribute is
toggled and then moved to position `column`.  Both calls are given
`info->items[attr_id]`, read again after the toggle.  The menu is not posted
yet: `post_menu` is called after the loop. -/
def seed_column (items : List ITEM) (attr : String) (column : Nat) : Option (List ITEM) :=
  match seed_search items attr (item_count items) 0 with
  | none => some items
  | some attr_id =>
    match items[attr_id]? with
    | none => none
    | some item =>
      match column_select_toggle_item false items item with
      | none => none
      | some items1 =>
        match items1[attr_id]? with
        | none => none
        | some item1 => column_select_move_item false items1 item1 (column : Int)

/-- The outer loop of the seeding over the call list columns from number `column` on. -/
def seed_loop : List CallListColumn → Nat → List ITEM → Option (List ITEM)
  | [], _, items => some items
  | col :: rest, column, items =>
    match seed_column items col.attr column with
    | none => none
    | some items1 => seed_loop rest (column + 1) items1

/-- State of the panel (`column_select_info_t`): the item array, the flag
`form_active` and the index of the form's current field. -/
structure column_select_info_t where
  items : List ITEM
  form_active : Bool
  field_idx : Nat
deriving DecidableEq, Repr

/-- Modelled from the spec: the field indices `FLD_COLUMNS_*` of the header,
in the cycle order Accept, Save, Cancel. -/
def FLD_COLUMNS_ACCEPT : Nat := 0

/-- Modelled from the spec: field index of the Save button. -/
def FLD_COLUMNS_SAVE : Nat := 1

/-- Modelled from the spec: field index of the Cancel button. -/
def FLD_COLUMNS_CANCEL : Nat := 2

/-- Modelled from the spec: number of fields of the form. -/
def FLD_COLUMNS_COUNT : Nat := 3

/-- Function `column_select_create (ui)` as far as the panel state goes: the items are
created, connected to a new menu, and seeded from the call list's columns;
the form starts on its first field with `form_active = 0`. -/
def column_select_create (cat : AttrCatalog) (list_info : CallListInfo) :
    Option column_select_info_t :=
  match seed_loop list_info.columns 0 (new_menu (create_items cat)) with
  | none => none
  | some items =>
    some { items := items, form_active := false, field_idx := FLD_COLUMNS_ACCEPT }

/-! ## `column_select_update_columns`: commit -/

/-- The loop of `column_select_update_columns` over the items from the current
one on: an item whose name starts with `"[ ]"` is skipped, any other adds the
column of the attribute found by its user pointer. -/
def update_columns_loop (cat : AttrCatalog) : List ITEM → CallListInfo → CallListInfo
  | [], list_info => list_info
  | item :: rest, list_info =>
    -- If column is active
    if strncmp_eq (item_name item) "[ ]" 3 then
      update_columns_loop cat rest list_info
    else
      -- Get column attribute
      let attr_id := sip_attr_from_name cat (item_userptr item)
      -- Add a new column to the list
      update_columns_loop cat rest
        (call_list_add_column list_info attr_id (sip_attr_get_name cat attr_id)
          (sip_attr_get_title cat attr_id) (sip_attr_get_width cat attr_id))

/-- Function `column_select_update_columns (ui)`: the column count is reset and the
loop adds the selected columns. -/
def column_select_update_columns (cat : AttrCatalog) (items : List ITEM)
    (_list_info : CallListInfo) : CallListInfo :=
  -- Reset column count
  update_columns_loop cat items { columns := [] }

/-! ## `column_select_save_columns`: writing the configuration file -/

/-- Library call `g_strsplit (string, "\n", -1)` on the characters after the start of
the string: the pieces between the newlines.  A string that ends with a
newline has an empty last piece. -/
def strsplit_newline : List Char → List (List Char)
  | [] => [[]]
  | c :: rest =>
    if c = '\n' then [] :: strsplit_newline rest
    else
      match strsplit_newline rest with
      | [] => [[c]]
      | piece :: pieces => (c :: piece) :: pieces

/-- Library call `g_strsplit (string, "\n", -1)`; the empty string has no piece at all. -/
def g_strsplit_newline (string : String) : List String :=
  if string.data = [] then [] else (strsplit_newline string.data).map String.mk

/-- Test `g_ascii_strncasecmp (s1, s2, n) == 0`: the first `n` characters agree
when the ASCII capitals are read as small letters. -/
def g_ascii_strncasecmp_eq (s1 s2 : String) (n : Nat) : Bool :=
  (s1.data.take n).map Char.toLower == (s2.data.take n).map Char.toLower

/-- The loop that puts the existing configuration into the new file: every
piece that does not begin with `set cl.column` is printed with `"%s\n"`. -/
def save_old_lines : List String → List String
  | [] => []
  | line :: rest =>
    if !(g_ascii_strncasecmp_eq line "set cl.column" 13) then
      (line ++ "\n") :: save_old_lines rest
    else
      save_old_lines rest

/-- The loop that adds the selected columns, from loop index `i` on: an item
whose name starts with `"[ ]"` is skipped, any other is printed with
`"set cl.column%d %s\n"`, where `%d` is the loop index `i`. -/
def save_column_lines : Nat → List ITEM → List String
  | _, [] => []
  | i, item :: rest =>
    -- If column is active
    if strncmp_eq (item_name item) "[ ]" 3 then
      save_column_lines (i + 1) rest
    else
      -- Add the columns settings
      ("set cl.column" ++ toString i ++ " " ++ item_userptr item ++ "\n")
        :: save_column_lines (i + 1) rest

/-- What `column_select_save_columns` sees of the process environment: the two
variables, and whether `g_fopen (userconf, "w")` and `g_file_get_contents`
succeed (with the text of `g_strerror (errno)` for the failure dialog). -/
structure SaveEnv where
  SNGREPRC : Option String
  HOME : Option String
  fopen_ok : Bool
  read_ok : Bool
  strerror : String

/-- The regular files by path, with their contents. -/
abbrev Files := String → Option String

/-- Library call `g_unlink (path)`. -/
def g_unlink (files : Files) (path : String) : Files :=
  fun p => if p = path then none else files p

/-- Library call `g_rename (old, new)`: fails, changing nothing, when `old` does not exist. -/
def g_rename (files : Files) (old new : String) : Files :=
  match files old with
  | none => files
  | some contents => fun p => if p = new then some contents else if p = old then none else files p

/-- The path of the user configuration built at the start of
`column_select_save_columns`: `$SNGREPRC`, else `$HOME/.sngreprc`, else empty. -/
def save_userconf (env : SaveEnv) : String :=
  match env.SNGREPRC with
  | some rcfile => rcfile
  | none =>
    match env.HOME with
    | some rcfile => rcfile ++ "/.sngreprc"
    | none => ""

/-- Everything printed to the new configuration file: the kept lines of the
old configuration (when the backup exists and can be read) and then the
lines of the selected columns. -/
def save_written (env : SaveEnv) (backup : Option String) (items : List ITEM) : List String :=
  (match backup with
    | none => []
    | some usercontents =>
      if env.read_ok then save_old_lines (g_strsplit_newline usercontents) else [])
  ++ save_column_lines 0 items

/-- Function `column_select_save_columns (ui)`: the files afterwards and the dialog shown,
if any. -/
def column_select_save_columns (env : SaveEnv) (files : Files) (items : List ITEM) :
    Files × Option String :=
  let userconf := save_userconf env
  -- No user configuration found!
  if userconf.length = 0 then (files, none)
  else
    -- Path for backup file
    let tmpfile := userconf ++ ".old"
    -- Remove old config file
    let files1 := if (files tmpfile).isSome then g_unlink files tmpfile else files
    -- Move user conf file to temporal file
    let files2 := g_rename files1 userconf tmpfile
    -- Create a new user conf file
    if !env.fopen_ok then
      (files2, some ("Unable to open " ++ userconf ++ ": " ++ env.strerror))
    else
      let contents := String.join (save_written env (files2 tmpfile) items)
      (fun p => if p = userconf then some contents else files2 p,
        some ("Column layout successfully saved to " ++ userconf))

/-! ## `column_select_handle_key_form`: the buttons -/

/-- Modelled from the spec: the key actions named in the examined file (the
enumeration is declared outside it); `ACTION_OTHER` stands for every other
action a key may be bound to. -/
inductive KeyAction where
  | ACTION_DOWN | ACTION_UP | ACTION_NPAGE | ACTION_PPAGE
  | ACTION_SELECT | ACTION_COLUMN_MOVE_DOWN | ACTION_COLUMN_MOVE_UP
  | ACTION_NEXT_FIELD | ACTION_PREV_FIELD | ACTION_CONFIRM
  | ACTION_RIGHT | ACTION_LEFT
  | ACTION_OTHER (code : Nat)
deriving DecidableEq, Repr

/-- Library call `form_driver (form, REQ_NEXT_FIELD)` on the three buttons: the next
field, the first one after the last. -/
def form_next_field (field_idx : Nat) : Nat := (field_idx + 1) % FLD_COLUMNS_COUNT

/-- Library call `form_driver (form, REQ_PREV_FIELD)` on the three buttons: the previous
field, the last one before the first. -/
def form_prev_field (field_idx : Nat) : Nat :=
  (field_idx + FLD_COLUMNS_COUNT - 1) % FLD_COLUMNS_COUNT

/-- What lies outside the panel: the call list's columns, the files and the
dialogs shown so far. -/
structure World where
  list_info : CallListInfo
  files : Files
  dialogs : List String

/-- Result of a key handler: the panel (`none` after `ui_destroy`), the world
and whether the key was handled (`KEY_HANDLED`). -/
structure KeyResult where
  info : Option column_select_info_t
  world : World
  handled : Bool

/-- How the action loop of the form handler ends: by a `return` from inside
the loop, or by leaving it with the form's current field and the flag
`action == ERR`. -/
inductive FormLoopExit where
  | returned (result : KeyResult)
  | left (new_field_idx : Nat) (action_err : Bool)

/-- The `while` loop of `column_select_handle_key_form` over the actions the key
is bound to, in the order `key_find_action` yields them. -/
def form_action_loop (cat : AttrCatalog) (env : SaveEnv) (info : column_select_info_t)
    (world : World) : List KeyAction → FormLoopExit
  | [] => .left info.field_idx true
  | action :: rest =>
    match action with
    | .ACTION_RIGHT | .ACTION_NEXT_FIELD => .left (form_next_field info.field_idx) false
    | .ACTION_LEFT | .ACTION_PREV_FIELD => .left (form_prev_field info.field_idx) false
    | .ACTION_SELECT | .ACTION_CONFIRM =>
      if info.field_idx = FLD_COLUMNS_ACCEPT then
        .returned
          { info := none
            world := { world with
              list_info := column_select_update_columns cat info.items world.list_info }
            handled := true }
      else if info.field_idx = FLD_COLUMNS_CANCEL then
        .returned { info := none, world := world, handled := true }
      else if info.field_idx = FLD_COLUMNS_SAVE then
        let saved := column_select_save_columns env world.files info.items
        .returned
          { info := none
            world :=
              { list_info := column_select_update_columns cat info.items world.list_info
                files := saved.1
                dialogs := world.dialogs ++ saved.2.toList }
            handled := true }
      else
        .left info.field_idx false
    | _ => form_action_loop cat env info world rest

/-- Function `column_select_handle_key_form (ui, key)`; `actions` are the actions bound to
the key.  After the loop the panel goes back to the menu (`form_active = 0`)
when the field before was Cancel and the field now is Accept. -/
def column_select_handle_key_form (cat : AttrCatalog) (env : SaveEnv)
    (info : column_select_info_t) (world : World) (actions : List KeyAction) : KeyResult :=
  -- Get current field id
  let field_idx := info.field_idx
  match form_action_loop cat env info world actions with
  | .returned result => result
  | .left new_field_idx action_err =>
    -- Swap between menu and form
    let form_active :=
      if field_idx = FLD_COLUMNS_CANCEL ∧ new_field_idx = FLD_COLUMNS_ACCEPT then false
      else info.form_active
    { info := some { info with form_active := form_active, field_idx := new_field_idx }
      world := world
      handled := !action_err }

/-! ## Notions used to state the properties -/

/-- An item is enabled when its name does not start with `"[ ]"`: the test
that commit and save make on every item. -/
def item_enabled (item : ITEM) : Bool := !(strncmp_eq (item_name item) "[ ]" 3)

/-- What an item stands for: its attribute name, its description and whether
it is enabled. -/
def item_view (item : ITEM) : String × String × Bool :=
  (item_userptr item, item_description item, item_enabled item)

/-- The item array is connected to the menu: connecting it again changes
nothing, that is, every item holds its own position as index. -/
def menu_connected (items : List ITEM) : Prop := connect_items 0 items = items

instance (items : List ITEM) : Decidable (menu_connected items) :=
  inferInstanceAs (Decidable (connect_items 0 items = items))

/-- The names the panel gives to items: `"[ ]"` and `"[*]"`. -/
def item_marked (item : ITEM) : Prop := item_name item = "[ ]" ∨ item_name item = "[*]"

instance (item : ITEM) : Decidable (item_marked item) :=
  inferInstanceAs (Decidable (item_name item = "[ ]" ∨ item_name item = "[*]"))

/-- The attribute an item points to, with the description it shows. -/
def item_attribute (item : ITEM) : String × String :=
  (item_userptr item, item_description item)

/-- The catalog in catalog order: name and description of the attribute ids
`0 .. SIP_ATTR_COUNT - 1`. -/
def catalog_attributes (cat : AttrCatalog) : List (String × String) :=
  (List.range cat.SIP_ATTR_COUNT).map fun (attr_id : Nat) =>
    (sip_attr_get_name cat (attr_id : Int), sip_attr_get_description cat (attr_id : Int))

/-- The call list column of the attribute an item points to. -/
def item_column (cat : AttrCatalog) (item : ITEM) : CallListColumn :=
  { id := sip_attr_from_name cat (item_userptr item)
    attr := sip_attr_get_name cat (sip_attr_from_name cat (item_userptr item))
    title := sip_attr_get_title cat (sip_attr_from_name cat (item_userptr item))
    width := sip_attr_get_width cat (sip_attr_from_name cat (item_userptr item)) }

/-- Invariant of the seeding loop once the columns with the attribute names
`done` have been handled: the items of these columns stand in front, in
that order and marked `"[*]"`; behind them every item is marked `"[ ]"`; the
items are the catalog attributes in some order; the array is connected. -/
def seed_invariant (cat : AttrCatalog) (done : List String) (items : List ITEM) : Prop :=
  ∃ front rest, items = front ++ rest ∧ front.map item_userptr = done ∧
    (∀ item ∈ front, item_name item = "[*]") ∧ (∀ item ∈ rest, item_name item = "[ ]") ∧
    (items.map item_attribute).Perm (catalog_attributes cat) ∧ menu_connected items

/-- The actions the `switch` of the form handler has a case for. -/
def form_handles : KeyAction → Bool
  | .ACTION_RIGHT | .ACTION_NEXT_FIELD | .ACTION_LEFT | .ACTION_PREV_FIELD
  | .ACTION_SELECT | .ACTION_CONFIRM => true
  | _ => false

/-- The line printed for a selected column: `"set cl.column%d %s\n"`. -/
def column_directive (index : Nat) (token : String) : String :=
  "set cl.column" ++ toString index ++ " " ++ token ++ "\n"

/-- The directive lines as the specification words them: the enabled items
numbered by their position within the selection. -/
def spec_column_lines (items : List ITEM) : List String :=
  (items.filter item_enabled).enum.map fun p => column_directive p.1 (item_userptr p.2)

/-- The item list as the specification words the seeding, as attribute names
with the enabled flag: the active attributes, enabled, then the other
catalog attributes in catalog order, disabled. -/
def spec_open_order (cat : AttrCatalog) (active : List String) : List (String × Bool) :=
  active.map (fun attr => (attr, true)) ++
    (((catalog_attributes cat).map Prod.fst).filter fun attr => !active.contains attr).map
      fun attr => (attr, false)

/-! ### Concrete data for the examples -/

/-- A catalog of three attributes `A`, `B`, `C`. -/
def catalog_abc : AttrCatalog where
  SIP_ATTR_COUNT := 3
  name := fun id => if id = 0 then "A" else if id = 1 then "B" else if id = 2 then "C" else ""
  description := fun id =>
    if id = 0 then "Attribute A" else if id = 1 then "Attribute B"
    else if id = 2 then "Attribute C" else ""
  title := fun id =>
    if id = 0 then "Title A" else if id = 1 then "Title B" else if id = 2 then "Title C" else ""
  width := fun _ => 10
  from_name := fun name =>
    if name = "A" then 0 else if name = "B" then 1 else if name = "C" then 2 else -1

/-- The call list column of an attribute of `catalog_abc`. -/
def column_abc (id : Int) : CallListColumn :=
  { id := id, attr := catalog_abc.name id, title := catalog_abc.title id,
    width := catalog_abc.width id }

/-- The item of attribute `A`, disabled, connected at position `0`. -/
def item_a : ITEM := { name := "[ ]", description := "Attribute A", userptr := "A", index := 0 }

/-- The item of attribute `B`, enabled, connected at position `1`. -/
def item_b : ITEM := { name := "[*]", description := "Attribute B", userptr := "B", index := 1 }

/-- The item of attribute `C`, enabled, connected at position `2`. -/
def item_c : ITEM := { name := "[*]", description := "Attribute C", userptr := "C", index := 2 }

/-- A connected item list over `catalog_abc`: `A` disabled, `B` and `C` enabled. -/
def items_abc : List ITEM := [item_a, item_b, item_c]

/-- A connected item list over `catalog_abc`: `B` and `C` enabled in front, `A` disabled. -/
def items_bca : List ITEM :=
  [ { name := "[*]", description := "Attribute B", userptr := "B", index := 0 },
    { name := "[*]", description := "Attribute C", userptr := "C", index := 1 },
    { name := "[ ]", description := "Attribute A", userptr := "A", index := 2 } ]

/-- An environment with `HOME` set, in which the file operations succeed. -/
def env_home : SaveEnv :=
  { SNGREPRC := none, HOME := some "/home/user", fopen_ok := true, read_ok := true,
    strerror := "" }

/-- A file system whose only file is the user configuration, two lines, each
closed by a newline. -/
def files_prior : Files := fun path =>
  if path = "/home/user/.sngreprc" then some "set cl.column0 B\nset other.opt 5\n" else none

/-- A panel in the button form with focus on Cancel. -/
def panel_on_cancel : column_select_info_t :=
  { items := items_abc, form_active := true, field_idx := FLD_COLUMNS_CANCEL }

/-- A world with the call list showing `B`, and the prior configuration file. -/
def world_abc : World :=
  { list_info := { columns := [column_abc 1] }, files := files_prior, dialogs := [] }

/-! # Properties -/

/-! ## Connecting items -/

theorem length_connect_items (k : Nat) (l : List ITEM) :
    (connect_items k l).length = l.length := by
  induction l generalizing k with
  | nil => rfl
  | cons a l ih => simp [connect_items, ih]

theorem getElem?_connect_items (k i : Nat) (l : List ITEM) :
    (connect_items k l)[i]? =
      (l[i]?).map fun item => { item with index := ((k + i : Nat) : Int) } := by
  induction l generalizing k i with
  | nil => simp [connect_items]
  | cons a l ih =>
    cases i with
    | zero => simp [connect_items]
    | succ i =>
      have e : k + 1 + i = k + (i + 1) := by omega
      simp only [connect_items, List.getElem?_cons_succ, ih, e]

theorem connect_items_set (k i : Nat) (l : List ITEM) (x : ITEM) :
    connect_items k (l.set i x) =
      (connect_items k l).set i { x with index := ((k + i : Nat) : Int) } := by
  induction l generalizing k i with
  | nil => simp [connect_items]
  | cons a l ih =>
    cases i with
    | zero => simp [connect_items]
    | succ i =>
      have e : k + 1 + i = k + (i + 1) := by omega
      simp only [connect_items, List.set_cons_succ, ih, e]

theorem connect_items_idem (k : Nat) (l : List ITEM) :
    connect_items k (connect_items k l) = connect_items k l := by
  induction l generalizing k with
  | nil => rfl
  | cons a l ih => simp [connect_items, ih]

theorem map_connect_items {β : Type} (f : ITEM → β)
    (hf : ∀ (item : ITEM) (k : Int), f { item with index := k } = f item) (k : Nat)
    (l : List ITEM) : (connect_items k l).map f = l.map f := by
  induction l generalizing k with
  | nil => rfl
  | cons a l ih => simp [connect_items, ih, hf]

theorem menu_connected_connect_items (l : List ITEM) : menu_connected (connect_items 0 l) :=
  connect_items_idem 0 l

theorem menu_connected_index {items : List ITEM} (h : menu_connected items) {k : Nat}
    {item : ITEM} (hk : items[k]? = some item) : item_index item = (k : Int) := by
  unfold menu_connected at h
  have := getElem?_connect_items 0 k items
  rw [h, hk] at this
  simp at this
  rw [this]
  simp [item_index]

theorem menu_connected_set {items : List ITEM} (h : menu_connected items) (i : Nat) (x : ITEM)
    (hx : item_index x = (i : Int)) : menu_connected (items.set i x) := by
  unfold menu_connected at *
  rw [connect_items_set, h]
  congr
  cases x; simp [item_index] at hx; simp [hx]

theorem set_menu_items_unposted (items : List ITEM) :
    set_menu_items false items = connect_items 0 items := rfl

theorem set_menu_items_posted (items : List ITEM) : set_menu_items true items = items := rfl

theorem list_set_self {α : Type} {l : List α} {i : Nat} {x : α} (h : l[i]? = some x) :
    l.set i x = l := by
  apply List.ext_getElem?
  intro n
  rw [List.getElem?_set]
  by_cases hn : i = n
  · subst hn
    have : i < l.length := (List.getElem?_eq_some.1 h).1
    simp [this, h]
  · simp [hn]

theorem strncmp_eq_checked : strncmp_eq "[*]" "[ ]" 3 = false := by decide

theorem strncmp_eq_unchecked : strncmp_eq "[ ]" "[ ]" 3 = true := by decide

/-! ## Toggle -/

/-- On a posted menu the new item of a toggle stays unconnected. -/
theorem toggle_eq_posted (items : List ITEM) (i : Nat) (item : ITEM)
    (hconn : menu_connected items) (hi : items[i]? = some item) :
    column_select_toggle_item true items item =
      some (items.set i
        { name := if strncmp_eq (item_name item) "[ ]" 3 then "[*]" else "[ ]"
          description := item_description item
          userptr := item_userptr item
          index := ERR }) := by
  have hidx : item_index item = (i : Int) := menu_connected_index hconn hi
  have hlt : i < items.length := (List.getElem?_eq_some.1 hi).1
  unfold column_select_toggle_item
  have hg : (0 : Int) ≤ (i : Int) ∧ (i : Int) < (items.length : Int) := by omega
  simp only [hidx, hg, and_self, if_true, Int.toNat_ofNat, set_menu_items_posted]
  by_cases hn : strncmp_eq (item_name item) "[ ]" 3 = true
  · simp [hn, new_item, set_item_userptr]
  · simp [hn, new_item, set_item_userptr]

theorem toggle_eq (items : List ITEM) (i : Nat) (item : ITEM)
    (hconn : menu_connected items) (hi : items[i]? = some item) :
    column_select_toggle_item false items item =
      some (items.set i
        { name := if strncmp_eq (item_name item) "[ ]" 3 then "[*]" else "[ ]"
          description := item_description item
          userptr := item_userptr item
          index := (i : Int) }) := by
  have hidx : item_index item = (i : Int) := menu_connected_index hconn hi
  have hlt : i < items.length := (List.getElem?_eq_some.1 hi).1
  unfold column_select_toggle_item
  have hg : (0 : Int) ≤ (i : Int) ∧ (i : Int) < (items.length : Int) := by omega
  simp only [hidx, hg, and_self, if_true, Int.toNat_ofNat, set_menu_items_unposted]
  rw [connect_items_set]
  unfold menu_connected at hconn
  rw [hconn]
  by_cases hn : strncmp_eq (item_name item) "[ ]" 3 = true
  · simp [hn, new_item, set_item_userptr]
  · simp [hn, new_item, set_item_userptr]

/-- Reconnecting the array after a toggle on a posted menu gives what the
toggle gives on a menu that is not posted. -/
theorem update_menu_toggle (items : List ITEM) (i : Nat) (item : ITEM)
    (hconn : menu_connected items) (hi : items[i]? = some item) :
    (column_select_toggle_item true items item).map column_select_update_menu =
      column_select_toggle_item false items item := by
  rw [toggle_eq_posted items i item hconn hi, toggle_eq items i item hconn hi]
  simp only [Option.map_some', column_select_update_menu, set_menu_items_unposted]
  rw [connect_items_set]
  unfold menu_connected at hconn
  rw [hconn]
  simp

/-- The name a toggle gives: the other mark. -/
theorem toggled_name_enabled (name : String) :
    (!strncmp_eq (if strncmp_eq name "[ ]" 3 then "[*]" else "[ ]") "[ ]" 3) =
      !(!strncmp_eq name "[ ]" 3) := by
  by_cases hn : strncmp_eq name "[ ]" 3 = true
  · simp [hn, strncmp_eq_checked]
  · simp only [Bool.not_eq_true] at hn
    simp [hn, strncmp_eq_unchecked]

theorem toggled_name_twice (name : String) (h : name = "[ ]" ∨ name = "[*]") :
    (if strncmp_eq (if strncmp_eq name "[ ]" 3 then "[*]" else "[ ]") "[ ]" 3
      then "[*]" else "[ ]") = name := by
  rcases h with h | h <;> subst h <;> simp [strncmp_eq_checked, strncmp_eq_unchecked]

theorem update_menu_set (items : List ITEM) (i : Nat) (x : ITEM)
    (hconn : menu_connected items) :
    column_select_update_menu (items.set i x) = items.set i { x with index := (i : Int) } := by
  unfold column_select_update_menu
  rw [set_menu_items_unposted, connect_items_set]
  unfold menu_connected at hconn
  rw [hconn]
  simp

theorem update_menu_connected (items : List ITEM) (hconn : menu_connected items) :
    column_select_update_menu items = items := hconn

theorem toggle_result (posted : Bool) (items : List ITEM) (i : Nat) (item : ITEM)
    (hconn : menu_connected items) (hi : items[i]? = some item) :
    column_select_toggle_item posted items item =
      some (items.set i
        { name := if strncmp_eq (item_name item) "[ ]" 3 then "[*]" else "[ ]"
          description := item_description item
          userptr := item_userptr item
          index := if posted then ERR else (i : Int) }) := by
  cases posted
  · simpa using toggle_eq items i item hconn hi
  · simpa using toggle_eq_posted items i item hconn hi

/-- C7 (as amended): toggling the item at an in-range position `i` of a
connected item list, on a posted menu or not, succeeds and gives a list of
the same length that differs from the old one at position `i` only; the item
there has the same attribute and the same description and the negated
enabled flag.  While the menu is not posted the new list is connected again
by the call itself; on a posted menu `column_select_update_menu` connects
it.  Toggling the item at position `i` of the list so connected gives back
every attribute, description and enabled flag of the original list, and,
connected once more, the original list itself when the item carried one of
the two names the panel uses (`"[ ]"`, `"[*]"`). -/
theorem toggle_item_frame (posted : Bool) (items : List ITEM) (i : Nat) (item : ITEM)
    (hconn : menu_connected items) (hi : items[i]? = some item) :
    ∃ items' item',
      column_select_toggle_item posted items item = some items' ∧
      items'.length = items.length ∧
      items'[i]? = some item' ∧
      item_userptr item' = item_userptr item ∧
      item_description item' = item_description item ∧
      item_enabled item' = !item_enabled item ∧
      (∀ k, k ≠ i → items'[k]? = items[k]?) ∧
      (posted = false → column_select_update_menu items' = items') ∧
      menu_connected (column_select_update_menu items') ∧
      ∃ item1 items'',
        (column_select_update_menu items')[i]? = some item1 ∧
        column_select_toggle_item posted (column_select_update_menu items') item1
          = some items'' ∧
        items''.map item_view = items.map item_view ∧
        (posted = false → column_select_update_menu items'' = items'') ∧
        (item_marked item → column_select_update_menu items'' = items) := by
  have hlt : i < items.length := (List.getElem?_eq_some.1 hi).1
  have hidx : item_index item = (i : Int) := menu_connected_index hconn hi
  generalize hn1 : (if strncmp_eq item.name "[ ]" 3 then "[*]" else "[ ]") = n1
  generalize hn2 : (if strncmp_eq n1 "[ ]" 3 then "[*]" else "[ ]") = n2
  generalize hix : (if posted then ERR else (i : Int)) = ix
  have h1 : column_select_toggle_item posted items item =
      some (items.set i (ITEM.mk n1 item.description item.userptr ix)) := by
    rw [← hn1, ← hix]; exact toggle_result posted items i item hconn hi
  have hU : column_select_update_menu (items.set i (ITEM.mk n1 item.description item.userptr ix))
      = items.set i (ITEM.mk n1 item.description item.userptr (i : Int)) :=
    update_menu_set items i _ hconn
  have hUc : menu_connected (items.set i (ITEM.mk n1 item.description item.userptr (i : Int))) :=
    menu_connected_set hconn i _ rfl
  have hUi : (items.set i (ITEM.mk n1 item.description item.userptr (i : Int)))[i]? =
      some (ITEM.mk n1 item.description item.userptr (i : Int)) := List.getElem?_set_self hlt
  have h2 : column_select_toggle_item posted
        (items.set i (ITEM.mk n1 item.description item.userptr (i : Int)))
        (ITEM.mk n1 item.description item.userptr (i : Int)) =
      some (items.set i (ITEM.mk n2 item.description item.userptr ix)) := by
    have := toggle_result posted _ i _ hUc hUi
    rw [List.set_set] at this
    rw [← hn2, ← hix]; exact this
  have hU2 : column_select_update_menu
        (items.set i (ITEM.mk n2 item.description item.userptr ix))
      = items.set i (ITEM.mk n2 item.description item.userptr (i : Int)) :=
    update_menu_set items i _ hconn
  have hen1 : (!strncmp_eq n1 "[ ]" 3) = !(!strncmp_eq item.name "[ ]" 3) := by
    rw [← hn1]; exact toggled_name_enabled item.name
  have hen2 : (!strncmp_eq n2 "[ ]" 3) = !(!strncmp_eq n1 "[ ]" 3) := by
    rw [← hn2]; exact toggled_name_enabled n1
  refine ⟨items.set i (ITEM.mk n1 item.description item.userptr ix),
    ITEM.mk n1 item.description item.userptr ix, h1, List.length_set ..,
    List.getElem?_set_self hlt, rfl, rfl, hen1, ?_, ?_, ?_,
    ITEM.mk n1 item.description item.userptr (i : Int),
    items.set i (ITEM.mk n2 item.description item.userptr ix), ?_, ?_, ?_, ?_, ?_⟩
  · intro k hk
    exact List.getElem?_set_ne (Ne.symm hk)
  · intro hp
    subst hp
    rw [hU, ← hix]
    simp
  · rw [hU]; exact hUc
  · rw [hU]; exact hUi
  · rw [hU]; exact h2
  · rw [List.map_set]
    apply list_set_self
    rw [List.getElem?_map, hi]
    simp only [Option.map_some', item_view, item_userptr, item_description, item_enabled,
      item_name]
    rw [hen2, hen1]
    simp
  · intro hp
    subst hp
    rw [hU2, ← hix]
    simp
  · intro hm
    rw [hU2]
    apply list_set_self
    rw [hi]
    congr 1
    have hname : n2 = item.name := by
      rw [← hn2, ← hn1]; exact toggled_name_twice item.name hm
    rw [hname]
    cases item with
    | mk n d u ix0 =>
      simp only [item_index] at hidx
      simp [hidx]

/-! ## Move -/

theorem swap_perm {α : Type} [DecidableEq α] (l : List α) (i j : Nat) (x y : α)
    (hi : l[i]? = some x) (hj : l[j]? = some y) : ((l.set i y).set j x).Perm l := by
  obtain ⟨hil, hix⟩ := List.getElem?_eq_some.1 hi
  obtain ⟨hjl, hjy⟩ := List.getElem?_eq_some.1 hj
  by_cases hij : i = j
  · subst hij
    rw [List.set_set, list_set_self hi]
  · rw [List.perm_iff_count]
    intro b
    have hjl' : j < (l.set i y).length := by simpa using hjl
    rw [List.count_set _ _ _ _ hjl', List.count_set _ _ _ _ hil]
    have e1 : (l.set i y)[j] = y := by
      rw [List.getElem_set_ne hij]; exact hjy
    rw [e1, hix]
    have hx : (if (x == b) = true then 1 else 0) ≤ l.count b := by
      split
      · rename_i h
        have : x = b := by simpa using h
        subst this
        exact List.count_pos_iff.2 (hix ▸ List.getElem_mem _)
      · exact Nat.zero_le _
    omega

theorem move_eq_posted (items : List ITEM) (i j : Nat) (item other : ITEM)
    (hconn : menu_connected items) (hi : items[i]? = some item) (hj : items[j]? = some other) :
    column_select_move_item true items item (j : Int) =
      some ((items.set i other).set j item) := by
  have hidx : item_index item = (i : Int) := menu_connected_index hconn hi
  have hil : i < items.length := (List.getElem?_eq_some.1 hi).1
  have hjl : j < items.length := (List.getElem?_eq_some.1 hj).1
  unfold column_select_move_item
  have hg : ¬ ((j : Int) = (item_count items : Int) ∨ (j : Int) < 0) := by
    unfold item_count; omega
  have hg2 : (0 : Int) ≤ (i : Int) ∧ (i : Int) < (items.length : Int) := by omega
  simp only [hg, if_false, Int.toNat_ofNat, hj, hidx, hg2, and_self, if_true,
    set_menu_items_posted]

theorem move_eq (items : List ITEM) (i j : Nat) (item other : ITEM)
    (hconn : menu_connected items) (hi : items[i]? = some item) (hj : items[j]? = some other) :
    column_select_move_item false items item (j : Int) =
      some ((items.set i { other with index := (i : Int) }).set j
        { item with index := (j : Int) }) := by
  have hidx : item_index item = (i : Int) := menu_connected_index hconn hi
  have hil : i < items.length := (List.getElem?_eq_some.1 hi).1
  have hjl : j < items.length := (List.getElem?_eq_some.1 hj).1
  unfold column_select_move_item
  have hg : ¬ ((j : Int) = (item_count items : Int) ∨ (j : Int) < 0) := by
    unfold item_count; omega
  have hg2 : (0 : Int) ≤ (i : Int) ∧ (i : Int) < (items.length : Int) := by omega
  simp only [hg, if_false, Int.toNat_ofNat, hj, hidx, hg2, and_self, if_true,
    set_menu_items_unposted]
  rw [connect_items_set, connect_items_set]
  unfold menu_connected at hconn
  rw [hconn]
  simp

theorem move_result (posted : Bool) (items : List ITEM) (i j : Nat) (item other : ITEM)
    (hconn : menu_connected items) (hi : items[i]? = some item) (hj : items[j]? = some other) :
    column_select_move_item posted items item (j : Int) =
      some ((items.set i (if posted then other else { other with index := (i : Int) })).set j
        (if posted then item else { item with index := (j : Int) })) := by
  cases posted
  · simpa using move_eq items i j item other hconn hi hj
  · simpa using move_eq_posted items i j item other hconn hi hj

theorem update_menu_set_set (posted : Bool) (items : List ITEM) (i j : Nat) (x y : ITEM)
    (hconn : menu_connected items) :
    column_select_update_menu
        ((items.set i (if posted then x else { x with index := (i : Int) })).set j
          (if posted then y else { y with index := (j : Int) })) =
      (items.set i { x with index := (i : Int) }).set j { y with index := (j : Int) } := by
  unfold column_select_update_menu
  rw [set_menu_items_unposted, connect_items_set, connect_items_set]
  unfold menu_connected at hconn
  rw [hconn]
  cases posted <;> simp

theorem reindex_self {item : ITEM} {i : Nat} (h : item_index item = (i : Int)) :
    ({ item with index := (i : Int) } : ITEM) = item := by
  cases item; simp [item_index] at h; simp [h]

theorem item_view_reindex (item : ITEM) (i : Int) :
    item_view { item with index := i } = item_view item := rfl

/-- C8 (as amended): for in-range positions `i` and `j` of a connected item
list, on a posted menu or not, moving the item at `i` to `j` succeeds and
exchanges the entries at `i` and `j`, leaves every other position as it was,
keeps the list a permutation of the old one and changes nothing when
`i = j`.  While the menu is not posted the call itself connects the new list
(each moved item takes the index of its new position); on a posted menu the
moved items keep their old indices until `column_select_update_menu` connects
the list.  On the list so connected, moving the item now at `i` to `j` once
more and connecting again gives back the original list. -/
theorem move_item_swap_involution (posted : Bool) (items : List ITEM) (i j : Nat)
    (item other : ITEM)
    (hconn : menu_connected items) (hi : items[i]? = some item) (hj : items[j]? = some other) :
    ∃ items',
      column_select_move_item posted items item (j : Int) = some items' ∧
      items'.length = items.length ∧
      items'[i]? = some (if posted then other else { other with index := (i : Int) }) ∧
      items'[j]? = some (if posted then item else { item with index := (j : Int) }) ∧
      (∀ k, k ≠ i → k ≠ j → items'[k]? = items[k]?) ∧
      (items'.map item_view).Perm (items.map item_view) ∧
      (i = j → items' = items) ∧
      (posted = false → column_select_update_menu items' = items') ∧
      menu_connected (column_select_update_menu items') ∧
      (column_select_update_menu items')[i]? = some { other with index := (i : Int) } ∧
      ∃ items'',
        column_select_move_item posted (column_select_update_menu items')
            { other with index := (i : Int) } (j : Int) = some items'' ∧
        (posted = false → column_select_update_menu items'' = items'') ∧
        column_select_update_menu items'' = items := by
  have hidx : item_index item = (i : Int) := menu_connected_index hconn hi
  have hjdx : item_index other = (j : Int) := menu_connected_index hconn hj
  have hil : i < items.length := (List.getElem?_eq_some.1 hi).1
  have hjl : j < items.length := (List.getElem?_eq_some.1 hj).1
  have hsame : i = j → other = item := by
    intro hij; subst hij; rw [hi] at hj; exact (Option.some.inj hj).symm
  generalize hoi : ({ other with index := (i : Int) } : ITEM) = oi
  generalize hij' : ({ item with index := (j : Int) } : ITEM) = ij
  have hview_oi : item_view oi = item_view other := by rw [← hoi]; rfl
  have hview_ij : item_view ij = item_view item := by rw [← hij']; rfl
  generalize hop : (if posted then other else oi) = op
  generalize hip : (if posted then item else ij) = ip
  have hview_op : item_view op = item_view other := by
    rw [← hop]; cases posted <;> simp [hview_oi]
  have hview_ip : item_view ip = item_view item := by
    rw [← hip]; cases posted <;> simp [hview_ij]
  have h1 : column_select_move_item posted items item (j : Int) =
      some ((items.set i op).set j ip) := by
    rw [← hop, ← hip, ← hoi, ← hij']
    exact move_result posted items i j item other hconn hi hj
  have hU : column_select_update_menu ((items.set i op).set j ip) =
      (items.set i oi).set j ij := by
    rw [← hop, ← hip, ← hoi, ← hij']
    have := update_menu_set_set posted items i j other item hconn
    cases posted <;> simpa using this
  have hc1 : menu_connected (items.set i oi) :=
    menu_connected_set hconn i _ (by rw [← hoi]; rfl)
  have hc2 : menu_connected ((items.set i oi).set j ij) :=
    menu_connected_set hc1 j _ (by rw [← hij']; rfl)
  have hget (x y : ITEM) (hxy : i = j → x = y) : ((items.set i x).set j y)[i]? = some x := by
    by_cases hij : i = j
    · have := hxy hij
      subst hij
      subst this
      rw [List.getElem?_set_self (by simpa using hil)]
    · rw [List.getElem?_set_ne (Ne.symm hij), List.getElem?_set_self hil]
  have hoi_ij : i = j → oi = ij := by
    intro hij
    rw [← hoi, ← hij', hsame hij, hij]
  have hop_ip : i = j → op = ip := by
    intro hij
    rw [← hop, ← hip, hoi_ij hij, hsame hij]
  have hgi : ((items.set i oi).set j ij)[i]? = some oi := hget oi ij hoi_ij
  have hgj : ((items.set i oi).set j ij)[j]? = some ij :=
    List.getElem?_set_self (by simpa using hjl)
  -- the second move
  have h2 := move_result posted _ i j oi ij hc2 hgi hgj
  have hU2 := update_menu_set_set posted ((items.set i oi).set j ij) i j ij oi hc2
  have e1 : ({ ij with index := (i : Int) } : ITEM) = item := by
    rw [← hij']; exact reindex_self hidx
  have e2 : ({ oi with index := (j : Int) } : ITEM) = other := by
    rw [← hoi]; exact reindex_self hjdx
  rw [e1, e2] at hU2 h2
  have hback : (((items.set i oi).set j ij).set i item).set j other = items := by
    apply List.ext_getElem?
    intro n
    by_cases hnj : j = n
    · subst hnj
      rw [List.getElem?_set_self (by simpa using hjl), hj]
    · rw [List.getElem?_set_ne hnj]
      by_cases hni : i = n
      · subst hni
        rw [List.getElem?_set_self (by simpa using hil), hi]
      · rw [List.getElem?_set_ne hni, List.getElem?_set_ne hnj, List.getElem?_set_ne hni]
  refine ⟨(items.set i op).set j ip, h1, by simp, hget op ip hop_ip,
    List.getElem?_set_self (by simpa using hjl), ?_, ?_, ?_, ?_, ?_, ?_,
    (((items.set i oi).set j ij).set i (if posted then ij else item)).set j
      (if posted then oi else other), ?_, ?_, ?_⟩
  · intro k hki hkj
    rw [List.getElem?_set_ne (Ne.symm hkj), List.getElem?_set_ne (Ne.symm hki)]
  · rw [List.map_set, List.map_set, hview_op, hview_ip]
    apply swap_perm
    · rw [List.getElem?_map, hi]; rfl
    · rw [List.getElem?_map, hj]; rfl
  · intro hij
    have ho := hsame hij
    subst hij
    subst ho
    rw [List.set_set]
    apply list_set_self
    rw [hi, ← hip, ← hij']
    cases posted
    · simp [reindex_self hidx]
    · simp
  · intro hp
    subst hp
    rw [hU, ← hop, ← hip]
    simp
  · rw [hU]; exact hc2
  · rw [hU]; exact hgi
  · rw [hU]; exact h2
  · intro hp
    subst hp
    rw [hU2]
    simp
  · rw [hU2]; exact hback

/-- Guarded targets: nothing happens. -/
theorem move_item_guard (posted : Bool) (items : List ITEM) (item : ITEM) (pos : Int)
    (h : pos = (items.length : Int) ∨ pos < 0) :
    column_select_move_item posted items item pos = some items := by
  unfold column_select_move_item item_count
  simp [h]

/-- Targets beyond the terminator: the entry read lies outside the list. -/
theorem move_item_beyond (posted : Bool) (items : List ITEM) (item : ITEM) (pos : Int)
    (h : (items.length : Int) < pos) :
    column_select_move_item posted items item pos = none := by
  unfold column_select_move_item item_count
  have hg : ¬ (pos = (items.length : Int) ∨ pos < 0) := by omega
  have hn : items[pos.toNat]? = none := List.getElem?_eq_none (by omega)
  simp [hg, hn]

/-! ## Seeding -/

theorem exists_first_match {α : Type} (p : α → Bool) (l : List α) (h : ∃ x ∈ l, p x = true) :
    ∃ l1 x l2, l = l1 ++ x :: l2 ∧ p x = true ∧ ∀ y ∈ l1, p y = false := by
  induction l with
  | nil => simp at h
  | cons a l ih =>
    by_cases ha : p a = true
    · exact ⟨[], a, l, rfl, ha, by simp⟩
    · have hl : ∃ x ∈ l, p x = true := by
        obtain ⟨x, hx, hpx⟩ := h
        rcases List.mem_cons.1 hx with rfl | hx
        · exact absurd hpx ha
        · exact ⟨x, hx, hpx⟩
      obtain ⟨l1, x, l2, rfl, hpx, hl1⟩ := ih hl
      refine ⟨a :: l1, x, l2, rfl, hpx, ?_⟩
      intro y hy
      rcases List.mem_cons.1 hy with rfl | hy
      · simpa using ha
      · exact hl1 y hy

theorem getElem?_mid {α : Type} (A B : List α) (x : α) : (A ++ x :: B)[A.length]? = some x := by
  rw [List.getElem?_append_right (Nat.le_refl _)]
  simp

theorem set_mid {α : Type} (A B : List α) (x y : α) :
    (A ++ x :: B).set A.length y = A ++ y :: B := by
  rw [List.set_append]
  simp

theorem seed_search_found (attr : String) (P A B : List ITEM) (r : ITEM)
    (hA : ∀ y ∈ A, strcmp_eq (item_userptr y) attr = false)
    (hr : strcmp_eq (item_userptr r) attr = true) (todo : Nat) (htodo : A.length < todo) :
    seed_search (P ++ A ++ r :: B) attr todo P.length = some (P.length + A.length) := by
  induction A generalizing P todo with
  | nil =>
    cases todo with
    | zero => omega
    | succ todo =>
      simp only [List.append_nil, seed_search, getElem?_mid, hr, if_true, List.length_nil,
        Nat.add_zero]
  | cons a A ih =>
    cases todo with
    | zero => omega
    | succ todo =>
      have ha : strcmp_eq (item_userptr a) attr = false := hA a (List.mem_cons_self _ _)
      have hget : (P ++ a :: A ++ r :: B)[P.length]? = some a := by
        have := getElem?_mid P (A ++ r :: B) a
        simpa using this
      simp only [seed_search, hget, ha]
      have h := ih (P ++ [a]) (fun y hy => hA y (List.mem_cons_of_mem _ hy)) todo
        (by simp at htodo; omega)
      simp only [List.length_append, List.length_singleton, List.append_assoc,
        List.singleton_append, List.length_cons, List.length_nil, Nat.zero_add] at h ⊢
      simp only [Bool.false_eq_true, if_false]
      rw [h]
      congr 1
      omega

theorem strcmp_eq_iff (s1 s2 : String) : strcmp_eq s1 s2 = true ↔ s1 = s2 := by
  simp [strcmp_eq]

theorem seed_column_step (cat : AttrCatalog) (done : List String) (items : List ITEM)
    (attr : String) (hinv : seed_invariant cat done items) (hna : attr ∉ done)
    (hcat : ∃ d, (attr, d) ∈ catalog_attributes cat) :
    ∃ items', seed_column items attr done.length = some items' ∧
      seed_invariant cat (done ++ [attr]) items' := by
  obtain ⟨E, R, rfl, hE, hEn, hRn, hperm, hconn⟩ := hinv
  have hElen : E.length = done.length := by rw [← hE, List.length_map]
  have hEno : ∀ y ∈ E, strcmp_eq (item_userptr y) attr = false := by
    intro y hy
    rw [Bool.eq_false_iff]
    intro h
    rw [strcmp_eq_iff] at h
    apply hna
    rw [← hE, ← h]
    exact List.mem_map_of_mem _ hy
  have hex : ∃ x ∈ R, (fun x => strcmp_eq (item_userptr x) attr) x = true := by
    obtain ⟨d, hd⟩ := hcat
    have hm := (hperm.mem_iff (a := (attr, d))).2 hd
    obtain ⟨x, hx, hxa⟩ := List.mem_map.1 hm
    have hxu : item_userptr x = attr := by
      have := congrArg Prod.fst hxa
      simpa [item_attribute] using this
    rcases List.mem_append.1 hx with hxE | hxR
    · have := hEno x hxE
      rw [hxu] at this
      simp [strcmp_eq] at this
    · exact ⟨x, hxR, (strcmp_eq_iff _ _).2 hxu⟩
  obtain ⟨R1, r, R2, rfl, hr, hR1⟩ := exists_first_match _ R hex
  have hru : item_userptr r = attr := (strcmp_eq_iff _ _).1 hr
  have hrn : item_name r = "[ ]" := hRn r (by simp)
  -- the search stops at the item `r`
  have hA : ∀ y ∈ E ++ R1, strcmp_eq (item_userptr y) attr = false := by
    intro y hy
    rcases List.mem_append.1 hy with h | h
    · exact hEno y h
    · exact hR1 y h
  have hsearch : seed_search (E ++ (R1 ++ r :: R2)) attr
      (item_count (E ++ (R1 ++ r :: R2))) 0 = some (E ++ R1).length := by
    have := seed_search_found attr [] (E ++ R1) R2 r hA hr
      (item_count (E ++ (R1 ++ r :: R2))) (by simp [item_count])
    simpa using this
  have hitems : E ++ (R1 ++ r :: R2) = (E ++ R1) ++ r :: R2 := by simp
  have hget : (E ++ (R1 ++ r :: R2))[(E ++ R1).length]? = some r := by
    rw [hitems]; exact getElem?_mid _ _ _
  -- the toggle
  have htog := toggle_eq _ _ _ hconn hget
  have hname : (if strncmp_eq (item_name r) "[ ]" 3 = true then "[*]" else "[ ]") = "[*]" := by
    rw [hrn, strncmp_eq_unchecked]; rfl
  rw [hname] at htog
  generalize hr1 :
    ITEM.mk "[*]" (item_description r) (item_userptr r) ((E ++ R1).length : Int) = r1 at htog
  have hset1 : (E ++ (R1 ++ r :: R2)).set (E ++ R1).length r1 = (E ++ R1) ++ r1 :: R2 := by
    rw [hitems]; exact set_mid _ _ _ _
  rw [hset1] at htog
  have hconn1 : menu_connected ((E ++ R1) ++ r1 :: R2) := by
    rw [← hset1]
    exact menu_connected_set hconn _ _ (by rw [← hr1]; rfl)
  have hget1 : ((E ++ R1) ++ r1 :: R2)[(E ++ R1).length]? = some r1 := getElem?_mid _ _ _
  have hr1u : item_userptr r1 = attr := by rw [← hr1]; exact hru
  have hr1d : item_description r1 = item_description r := by rw [← hr1]; rfl
  have hr1n : item_name r1 = "[*]" := by rw [← hr1]; rfl
  -- the move, by cases on the items between the front and `r`
  unfold seed_column
  simp only [hsearch, hget, htog, hget1]
  rw [← hElen]
  cases R1 with
  | nil =>
    simp only [List.append_nil] at *
    have hmv := move_eq _ _ _ _ _ hconn1 hget1 hget1
    rw [List.set_set, set_mid] at hmv
    have hc2 : menu_connected
        (E ++ ITEM.mk r1.name r1.description r1.userptr (E.length : Int) :: R2) := by
      have := menu_connected_set hconn1 E.length
        (ITEM.mk r1.name r1.description r1.userptr (E.length : Int)) rfl
      rw [set_mid] at this
      exact this
    refine ⟨_, hmv, E ++ [ITEM.mk r1.name r1.description r1.userptr (E.length : Int)], R2,
      by simp, ?_, ?_, ?_, ?_, hc2⟩
    · simp only [List.map_append, hE, List.map_cons, List.map_nil]
      congr 2
    · intro item hitem
      rcases List.mem_append.1 hitem with h | h
      · exact hEn item h
      · simp at h; subst h; exact hr1n
    · intro item hitem
      exact hRn item (by simp [hitem])
    · refine List.Perm.trans ?_ hperm
      simp only [List.map_append, List.map_cons, item_attribute, item_userptr, item_description]
      have e1 : r1.userptr = r.userptr := by rw [← hr1]; rfl
      have e2 : r1.description = r.description := by rw [← hr1]; rfl
      rw [e1, e2]
      simp
  | cons x0 R1' =>
    have hgetc : ((E ++ x0 :: R1') ++ r1 :: R2)[E.length]? = some x0 := by
      have := getElem?_mid E (R1' ++ r1 :: R2) x0
      simpa using this
    have hmv := move_eq _ _ _ _ _ hconn1 hget1 hgetc
    have hs1 : ((E ++ x0 :: R1') ++ r1 :: R2).set (E ++ x0 :: R1').length
        (ITEM.mk x0.name x0.description x0.userptr ((E ++ x0 :: R1').length : Int))
        = E ++ x0 :: (R1' ++ ITEM.mk x0.name x0.description x0.userptr
            ((E ++ x0 :: R1').length : Int) :: R2) := by
      rw [set_mid]; simp
    rw [hs1, set_mid] at hmv
    have hc2 := menu_connected_set
      (menu_connected_set hconn1 (E ++ x0 :: R1').length
        (ITEM.mk x0.name x0.description x0.userptr ((E ++ x0 :: R1').length : Int)) rfl)
      E.length (ITEM.mk r1.name r1.description r1.userptr (E.length : Int)) rfl
    rw [hs1, set_mid] at hc2
    refine ⟨_, hmv, E ++ [ITEM.mk r1.name r1.description r1.userptr (E.length : Int)],
      R1' ++ ITEM.mk x0.name x0.description x0.userptr ((E ++ x0 :: R1').length : Int) :: R2,
      by simp, ?_, ?_, ?_, ?_, hc2⟩
    · simp only [List.map_append, hE, List.map_cons, List.map_nil]
      congr 2
    · intro item hitem
      rcases List.mem_append.1 hitem with h | h
      · exact hEn item h
      · simp at h; subst h; exact hr1n
    · intro item hitem
      rcases List.mem_append.1 hitem with h | h
      · exact hRn item (by simp [h])
      · rcases List.mem_cons.1 h with h | h
        · subst h
          exact hRn x0 (by simp)
        · exact hRn item (by simp [h])
    · refine List.Perm.trans ?_ hperm
      have e1 : r1.userptr = r.userptr := by rw [← hr1]; rfl
      have e2 : r1.description = r.description := by rw [← hr1]; rfl
      simp only [List.map_append, List.map_cons, item_attribute, item_userptr, item_description,
        e1, e2]
      apply List.Perm.append_left
      -- swap the images of `r` and `x0`
      have p1 : ((r.userptr, r.description) :: (List.map (fun it : ITEM => (it.userptr, it.description)) R1' ++
          (x0.userptr, x0.description) :: List.map (fun it : ITEM => (it.userptr, it.description)) R2)).Perm
          ((r.userptr, r.description) :: (x0.userptr, x0.description) ::
            (List.map (fun it : ITEM => (it.userptr, it.description)) R1' ++
              List.map (fun it : ITEM => (it.userptr, it.description)) R2)) :=
        List.Perm.cons _ List.perm_middle
      have p2 : ((x0.userptr, x0.description) :: (List.map (fun it : ITEM => (it.userptr, it.description)) R1' ++
          (r.userptr, r.description) :: List.map (fun it : ITEM => (it.userptr, it.description)) R2)).Perm
          ((x0.userptr, x0.description) :: (r.userptr, r.description) ::
            (List.map (fun it : ITEM => (it.userptr, it.description)) R1' ++
              List.map (fun it : ITEM => (it.userptr, it.description)) R2)) :=
        List.Perm.cons _ List.perm_middle
      exact p1.trans ((List.Perm.swap _ _ _).trans p2.symm)

theorem enabled_of_checked {item : ITEM} (h : item_name item = "[*]") :
    item_enabled item = true := by
  simp [item_enabled, h, strncmp_eq_checked]

theorem disabled_of_unchecked {item : ITEM} (h : item_name item = "[ ]") :
    item_enabled item = false := by
  simp [item_enabled, h, strncmp_eq_unchecked]

theorem seed_invariant_start (cat : AttrCatalog) :
    seed_invariant cat [] (new_menu (create_items cat)) := by
  refine ⟨[], new_menu (create_items cat), rfl, rfl, by simp, ?_, ?_, ?_⟩
  · intro item hitem
    have hm : item_name item ∈ (new_menu (create_items cat)).map item_name :=
      List.mem_map_of_mem _ hitem
    unfold new_menu at hm
    rw [map_connect_items item_name (fun _ _ => rfl)] at hm
    simp only [create_items, List.map_map, List.mem_map] at hm
    obtain ⟨a, _, ha⟩ := hm
    rw [← ha]
    rfl
  · unfold new_menu
    rw [map_connect_items item_attribute (fun _ _ => rfl)]
    simp only [create_items, catalog_attributes, List.map_map]
    exact List.Perm.refl _
  · exact connect_items_idem 0 _

theorem seed_loop_invariant (cat : AttrCatalog) (cols : List CallListColumn)
    (done : List String) (items : List ITEM) (hinv : seed_invariant cat done items)
    (hnodup : (done ++ cols.map (fun col => col.attr)).Nodup)
    (hcat : ∀ col ∈ cols, ∃ d, (col.attr, d) ∈ catalog_attributes cat) :
    ∃ items', seed_loop cols done.length items = some items' ∧
      seed_invariant cat (done ++ cols.map (fun col => col.attr)) items' := by
  induction cols generalizing done items with
  | nil => exact ⟨items, rfl, by simpa using hinv⟩
  | cons col cols ih =>
    have hna : col.attr ∉ done := by
      intro h
      have hd := List.disjoint_of_nodup_append hnodup
      exact hd h (by simp)
    obtain ⟨items1, hstep, hinv1⟩ :=
      seed_column_step cat done items col.attr hinv hna (hcat col (List.mem_cons_self _ _))
    have hnodup1 : ((done ++ [col.attr]) ++ cols.map (fun col => col.attr)).Nodup := by
      simpa using hnodup
    obtain ⟨items', hloop, hinv'⟩ := ih (done ++ [col.attr]) items1 hinv1 hnodup1
      (fun c hc => hcat c (List.mem_cons_of_mem _ hc))
    refine ⟨items', ?_, by simpa using hinv'⟩
    simp only [seed_loop, hstep]
    simpa using hloop

theorem create_invariant (cat : AttrCatalog) (list_info : CallListInfo)
    (hnodup : (list_info.columns.map (fun col => col.attr)).Nodup)
    (hcat : ∀ col ∈ list_info.columns,
      ∃ id : Nat, id < cat.SIP_ATTR_COUNT ∧ sip_attr_get_name cat id = col.attr) :
    ∃ items, column_select_create cat list_info =
        some { items := items, form_active := false, field_idx := FLD_COLUMNS_ACCEPT } ∧
      seed_invariant cat (list_info.columns.map (fun col => col.attr)) items := by
  have hcat' : ∀ col ∈ list_info.columns, ∃ d, (col.attr, d) ∈ catalog_attributes cat := by
    intro col hcol
    obtain ⟨id, hid, hname⟩ := hcat col hcol
    refine ⟨sip_attr_get_description cat id, ?_⟩
    unfold catalog_attributes
    rw [List.mem_map]
    exact ⟨id, List.mem_range.2 hid, by rw [hname]⟩
  obtain ⟨items, hloop, hinv⟩ := seed_loop_invariant cat list_info.columns [] _
    (seed_invariant_start cat) (by simpa using hnodup) hcat'
  refine ⟨items, ?_, by simpa using hinv⟩
  unfold column_select_create
  simp only [List.length_nil] at hloop
  rw [hloop]

theorem update_columns_loop_eq (cat : AttrCatalog) (items : List ITEM) (list_info : CallListInfo) :
    (update_columns_loop cat items list_info).columns =
      list_info.columns ++ (items.filter item_enabled).map (item_column cat) := by
  induction items generalizing list_info with
  | nil => simp [update_columns_loop]
  | cons item rest ih =>
    by_cases h : strncmp_eq (item_name item) "[ ]" 3 = true
    · simp [update_columns_loop, h, ih, item_enabled]
    · simp [update_columns_loop, h, ih, item_enabled, call_list_add_column, item_column]

/-! ## The button form -/

theorem form_action_loop_skip (cat : AttrCatalog) (env : SaveEnv) (info : column_select_info_t)
    (world : World) (pre rest : List KeyAction) (hpre : ∀ a ∈ pre, form_handles a = false) :
    form_action_loop cat env info world (pre ++ rest) =
      form_action_loop cat env info world rest := by
  induction pre with
  | nil => rfl
  | cons a pre ih =>
    have ha : form_handles a = false := hpre a (List.mem_cons_self _ _)
    have hrest := ih (fun b hb => hpre b (List.mem_cons_of_mem _ hb))
    cases a <;> simp [form_handles] at ha <;> simpa [form_action_loop] using hrest

/-- C9: in the button form, with `action` the first action of the key that
the form handles: `ACTION_RIGHT` and `ACTION_NEXT_FIELD` move the focus
Accept, Save, Cancel, Accept; `ACTION_LEFT` and `ACTION_PREV_FIELD` move it
the other way round and keep the form active; the form is left for the menu
(`form_active = 0`) exactly when the action was a forward one and the focus
went from Cancel to Accept.  `ACTION_SELECT` and `ACTION_CONFIRM` end the
panel, and a key without a handled action changes nothing. -/
theorem handle_key_form_focus_cycle (cat : AttrCatalog) (env : SaveEnv)
    (info : column_select_info_t) (world : World) (pre post : List KeyAction)
    (action : KeyAction)
    (hactive : info.form_active = true)
    (hfield : info.field_idx = FLD_COLUMNS_ACCEPT ∨ info.field_idx = FLD_COLUMNS_SAVE ∨
      info.field_idx = FLD_COLUMNS_CANCEL)
    (hpre : ∀ a ∈ pre, form_handles a = false)
    (haction : form_handles action = true) :
    ((action = .ACTION_RIGHT ∨ action = .ACTION_NEXT_FIELD) →
      ∃ info',
        column_select_handle_key_form cat env info world (pre ++ action :: post) =
          { info := some info', world := world, handled := true } ∧
        info'.items = info.items ∧
        (info.field_idx = FLD_COLUMNS_ACCEPT →
          info'.field_idx = FLD_COLUMNS_SAVE ∧ info'.form_active = true) ∧
        (info.field_idx = FLD_COLUMNS_SAVE →
          info'.field_idx = FLD_COLUMNS_CANCEL ∧ info'.form_active = true) ∧
        (info.field_idx = FLD_COLUMNS_CANCEL →
          info'.field_idx = FLD_COLUMNS_ACCEPT ∧ info'.form_active = false)) ∧
    ((action = .ACTION_LEFT ∨ action = .ACTION_PREV_FIELD) →
      ∃ info',
        column_select_handle_key_form cat env info world (pre ++ action :: post) =
          { info := some info', world := world, handled := true } ∧
        info'.items = info.items ∧
        info'.form_active = true ∧
        (info.field_idx = FLD_COLUMNS_ACCEPT → info'.field_idx = FLD_COLUMNS_CANCEL) ∧
        (info.field_idx = FLD_COLUMNS_SAVE → info'.field_idx = FLD_COLUMNS_ACCEPT) ∧
        (info.field_idx = FLD_COLUMNS_CANCEL → info'.field_idx = FLD_COLUMNS_SAVE)) ∧
    ((action = .ACTION_SELECT ∨ action = .ACTION_CONFIRM) →
      (column_select_handle_key_form cat env info world (pre ++ action :: post)).info = none) ∧
    column_select_handle_key_form cat env info world pre =
      { info := some info, world := world, handled := false } ∧
    (∀ info',
      (column_select_handle_key_form cat env info world (pre ++ action :: post)).info
          = some info' →
        (info'.form_active = false ↔
          (action = .ACTION_RIGHT ∨ action = .ACTION_NEXT_FIELD) ∧
            info.field_idx = FLD_COLUMNS_CANCEL ∧ info'.field_idx = FLD_COLUMNS_ACCEPT)) := by
  have hnone : form_action_loop cat env info world pre = .left info.field_idx true := by
    have := form_action_loop_skip cat env info world pre [] hpre
    simpa [form_action_loop] using this
  unfold column_select_handle_key_form
  rw [form_action_loop_skip cat env info world pre _ hpre, hnone]
  obtain ⟨items, fa, fi⟩ := info
  simp only at hactive hfield
  subst hactive
  cases action <;> simp [form_handles] at haction <;>
    rcases hfield with f | f | f <;> subst f <;>
      simp [form_action_loop, form_next_field, form_prev_field, FLD_COLUMNS_ACCEPT,
        FLD_COLUMNS_SAVE, FLD_COLUMNS_CANCEL, FLD_COLUMNS_COUNT]

/-! ## Save -/

theorem save_column_lines_enumFrom (i : Nat) (items : List ITEM) :
    save_column_lines i items =
      ((items.enumFrom i).filter fun p => item_enabled p.2).map
        fun p => column_directive p.1 (item_userptr p.2) := by
  induction items generalizing i with
  | nil => rfl
  | cons item rest ih =>
    by_cases h : strncmp_eq (item_name item) "[ ]" 3 = true
    · simp [save_column_lines, h, ih, item_enabled, List.enumFrom_cons]
    · simp [save_column_lines, h, ih, item_enabled, List.enumFrom_cons, column_directive]

theorem save_column_lines_disabled (i : Nat) (items : List ITEM) :
    save_column_lines i (items.filter fun item => !item_enabled item) = [] := by
  induction items generalizing i with
  | nil => rfl
  | cons item rest ih =>
    by_cases h : strncmp_eq (item_name item) "[ ]" 3 = true
    · simp [List.filter_cons, item_enabled, h, save_column_lines, ih]
      simpa [item_enabled] using ih (i + 1)
    · simp [List.filter_cons, item_enabled, h]
      simpa [item_enabled] using ih i

theorem save_column_lines_append (i : Nat) (xs ys : List ITEM) :
    save_column_lines i (xs ++ ys) =
      save_column_lines i xs ++ save_column_lines (i + xs.length) ys := by
  induction xs generalizing i with
  | nil => simp [save_column_lines]
  | cons x xs ih =>
    have e : i + 1 + xs.length = i + (xs.length + 1) := by omega
    by_cases h : strncmp_eq (item_name x) "[ ]" 3 = true
    · simp [save_column_lines, h, ih, e]
    · simp [save_column_lines, h, ih, e]

/-- C5 (as amended): the column loop of save prints one line
`set cl.column<index> <token>` per enabled item, in item list order, where
`<index>` is the position of the item in the whole item list (`List.enum`
numbers the items before the disabled ones are dropped) and `<token>` its
attribute name.  When the enabled items stand in front of the disabled ones
these are the positions within the selection, `0` to `m - 1` without gaps. -/
theorem save_column_lines_positions (front rest items : List ITEM) :
    save_column_lines 0 items =
      ((items.enum).filter fun p => item_enabled p.2).map
        (fun p => column_directive p.1 (item_userptr p.2)) ∧
    save_column_lines 0
        (front.filter item_enabled ++ rest.filter fun item => !item_enabled item) =
      spec_column_lines (front.filter item_enabled) := by
  refine ⟨save_column_lines_enumFrom 0 items, ?_⟩
  rw [save_column_lines_append, save_column_lines_disabled, List.append_nil,
    save_column_lines_enumFrom]
  have hall : List.filter (fun p : Nat × ITEM => item_enabled p.2)
      (List.enumFrom 0 (List.filter item_enabled front)) =
      List.enumFrom 0 (List.filter item_enabled front) := by
    rw [List.filter_eq_self]
    intro p hp
    exact (List.mem_filter.1 (List.snd_mem_of_mem_enumFrom hp)).2
  rw [hall]
  simp [spec_column_lines, List.enum, List.filter_filter]

/-! ## The claims about creation and commit -/

theorem update_columns_attr_names (cat : AttrCatalog) (items : List ITEM)
    (list_info : CallListInfo)
    (hnames : ∀ item ∈ items, item_enabled item = true →
      sip_attr_get_name cat (sip_attr_from_name cat (item_userptr item)) = item_userptr item) :
    (column_select_update_columns cat items list_info).columns.map (fun col => col.attr) =
      (items.filter item_enabled).map item_userptr := by
  unfold column_select_update_columns
  rw [update_columns_loop_eq]
  simp only [List.nil_append, List.map_map]
  apply List.map_congr_left
  intro item hitem
  have := List.mem_filter.1 hitem
  exact hnames item this.1 this.2

/-- C1: commit replaces the call list columns by the columns of the enabled
items, in item list order.  Whatever the columns were before, afterwards the
column table is the item list filtered to the enabled items, each mapped to
the column of the attribute its user pointer names (id, name, title and
width as the catalog gives them for `sip_attr_from_name`); in particular the
ids of the columns are the ids of the enabled items in list order, so no
disabled item contributes a column and no enabled one is left out or moved. -/
theorem update_columns_enabled_in_order (cat : AttrCatalog) (items : List ITEM)
    (list_info : CallListInfo) :
    (column_select_update_columns cat items list_info).columns =
      (items.filter item_enabled).map (item_column cat) ∧
    (column_select_update_columns cat items list_info).columns.map (fun col => col.id) =
      (items.filter item_enabled).map (fun item => sip_attr_from_name cat (item_userptr item)) ∧
    (column_select_update_columns cat items list_info).columncnt =
      (items.filter item_enabled).length := by
  have h : (column_select_update_columns cat items list_info).columns =
      (items.filter item_enabled).map (item_column cat) := by
    unfold column_select_update_columns
    rw [update_columns_loop_eq]
    rfl
  refine ⟨h, ?_, ?_⟩
  · rw [h, List.map_map]; rfl
  · unfold CallListInfo.columncnt
    rw [h, List.length_map]

/-- C2 (as amended): for a duplicate-free sequence of catalog attributes as
the call list columns, creation yields an item list `front ++ rest` where
`front` holds the active attributes in their order, one item each and all
enabled, and `rest` holds the remaining catalog attributes, all disabled, in
some order: `front` and `rest` together are a permutation of the catalog, so
`rest` is the catalog without the active attributes, but not necessarily in
catalog order. -/
theorem create_active_in_front (cat : AttrCatalog) (list_info : CallListInfo)
    (hnodup : (list_info.columns.map (fun col => col.attr)).Nodup)
    (hcat : ∀ col ∈ list_info.columns,
      ∃ id : Nat, id < cat.SIP_ATTR_COUNT ∧ sip_attr_get_name cat id = col.attr) :
    ∃ info front rest,
      column_select_create cat list_info = some info ∧
      info.items = front ++ rest ∧
      front.length = list_info.columncnt ∧
      front.map item_userptr = list_info.columns.map (fun col => col.attr) ∧
      (∀ item ∈ front, item_enabled item = true) ∧
      (∀ item ∈ rest, item_enabled item = false) ∧
      (front.map item_attribute ++ rest.map item_attribute).Perm (catalog_attributes cat) := by
  obtain ⟨items, hcreate, front, rest, hitems, hfront, hfn, hrn, hperm, _⟩ :=
    create_invariant cat list_info hnodup hcat
  refine ⟨_, front, rest, hcreate, hitems, ?_, hfront, ?_, ?_, ?_⟩
  · have := congrArg List.length hfront
    simpa [CallListInfo.columncnt] using this
  · intro item hitem
    exact enabled_of_checked (hfn item hitem)
  · intro item hitem
    exact disabled_of_unchecked (hrn item hitem)
  · rw [hitems, List.map_append] at hperm
    exact hperm

/-- C3: creation yields, for a catalog of `SIP_ATTR_COUNT` attributes and a
duplicate-free sequence of catalog attributes as the call list columns (the
empty and the full one included), an item list of length `SIP_ATTR_COUNT`
whose attributes are a permutation of the catalog; when the catalog names are
pairwise different, so are the attribute names of the items. -/
theorem create_items_permutation (cat : AttrCatalog) (list_info : CallListInfo)
    (hnodup : (list_info.columns.map (fun col => col.attr)).Nodup)
    (hcat : ∀ col ∈ list_info.columns,
      ∃ id : Nat, id < cat.SIP_ATTR_COUNT ∧ sip_attr_get_name cat id = col.attr) :
    ∃ info,
      column_select_create cat list_info = some info ∧
      item_count info.items = cat.SIP_ATTR_COUNT ∧
      (info.items.map item_attribute).Perm (catalog_attributes cat) ∧
      (((catalog_attributes cat).map Prod.fst).Nodup →
        (info.items.map item_userptr).Nodup) := by
  obtain ⟨items, hcreate, front, rest, _, _, _, _, hperm, _⟩ :=
    create_invariant cat list_info hnodup hcat
  refine ⟨_, hcreate, ?_, hperm, ?_⟩
  · have := hperm.length_eq
    simpa [catalog_attributes, item_count] using this
  · intro hnd
    have hp := hperm.map Prod.fst
    rw [List.map_map] at hp
    exact (hp.nodup_iff).2 hnd

/-- C10: creating the panel and committing at once gives the call list the
attributes it had, in the same order: for a duplicate-free sequence of
catalog attributes as columns, and a catalog whose lookup by name finds an
attribute of that name, the attribute names of the columns after
`column_select_create` and `column_select_update_columns` are those before. -/
theorem create_then_update_columns_same (cat : AttrCatalog) (list_info : CallListInfo)
    (hnodup : (list_info.columns.map (fun col => col.attr)).Nodup)
    (hcat : ∀ col ∈ list_info.columns,
      ∃ id : Nat, id < cat.SIP_ATTR_COUNT ∧ sip_attr_get_name cat id = col.attr)
    (hlookup : ∀ id : Nat, id < cat.SIP_ATTR_COUNT →
      sip_attr_get_name cat (sip_attr_from_name cat (sip_attr_get_name cat id)) =
        sip_attr_get_name cat id) :
    ∃ info,
      column_select_create cat list_info = some info ∧
      (column_select_update_columns cat info.items list_info).columns.map
          (fun col => col.attr) = list_info.columns.map (fun col => col.attr) ∧
      (column_select_update_columns cat info.items list_info).columncnt =
        list_info.columncnt := by
  obtain ⟨items, hcreate, front, rest, hitems, hfront, hfn, hrn, hperm, _⟩ :=
    create_invariant cat list_info hnodup hcat
  have hfilter : items.filter item_enabled = front := by
    rw [hitems, List.filter_append]
    have h1 : front.filter item_enabled = front :=
      List.filter_eq_self.2 (fun item h => enabled_of_checked (hfn item h))
    have h2 : rest.filter item_enabled = [] :=
      List.filter_eq_nil_iff.2 (fun item h => by simp [disabled_of_unchecked (hrn item h)])
    rw [h1, h2, List.append_nil]
  have hnames : ∀ item ∈ items, item_enabled item = true →
      sip_attr_get_name cat (sip_attr_from_name cat (item_userptr item)) =
        item_userptr item := by
    intro item hitem _
    have hm : item_attribute item ∈ catalog_attributes cat :=
      (hperm.mem_iff).1 (List.mem_map_of_mem _ hitem)
    unfold catalog_attributes at hm
    obtain ⟨id, hid, hpair⟩ := List.mem_map.1 hm
    have hu : sip_attr_get_name cat id = item_userptr item := by
      have := congrArg Prod.fst hpair
      simpa [item_attribute] using this
    rw [← hu]
    exact hlookup id (List.mem_range.1 hid)
  have hattr := update_columns_attr_names cat items list_info hnames
  rw [hfilter, hfront] at hattr
  refine ⟨_, hcreate, hattr, ?_⟩
  have := congrArg List.length hattr
  simpa [CallListInfo.columncnt] using this

/-! ## Evaluations at concrete inputs -/

theorem strsplit_newline_ne_nil (cs : List Char) : strsplit_newline cs ≠ [] := by
  induction cs with
  | nil => simp [strsplit_newline]
  | cons c cs ih =>
    unfold strsplit_newline
    split
    · simp
    · split <;> simp

theorem strsplit_newline_trailing (cs : List Char) :
    strsplit_newline (cs ++ ['\n']) = strsplit_newline cs ++ [[]] := by
  induction cs with
  | nil => simp [strsplit_newline]
  | cons c cs ih =>
    by_cases hc : c = '\n'
    · simp [strsplit_newline, hc, ih]
    · simp only [List.cons_append, strsplit_newline, hc, if_false]
      have ih' : strsplit_newline (cs.append ['\n']) = strsplit_newline cs ++ [[]] := ih
      rw [ih']
      cases h : strsplit_newline cs with
      | nil => exact absurd h (strsplit_newline_ne_nil cs)
      | cons piece pieces => simp

theorem save_old_lines_append (xs ys : List String) :
    save_old_lines (xs ++ ys) = save_old_lines xs ++ save_old_lines ys := by
  induction xs with
  | nil => rfl
  | cons x xs ih =>
    by_cases h : g_ascii_strncasecmp_eq x "set cl.column" 13 = true
    · simp [save_old_lines, h, ih]
    · simp [save_old_lines, h, ih]

/-- Whatever the old configuration is, when it ends with a newline the loop
over its pieces prints a line of its own for the empty piece after that
newline. -/
theorem save_old_lines_trailing_newline (cs : List Char) :
    save_old_lines (g_strsplit_newline (String.mk (cs ++ ['\n']))) =
      save_old_lines ((strsplit_newline cs).map String.mk) ++ ["\n"] := by
  unfold g_strsplit_newline
  have hne : (String.mk (cs ++ ['\n'])).data ≠ [] := by simp
  simp only [hne, if_false]
  rw [strsplit_newline_trailing, List.map_append, save_old_lines_append]
  congr 1

/-- The copy loop keeps the pieces of the old configuration that do not begin
with `set cl.column`, in their order, each followed by a newline. -/
theorem save_old_lines_filter (contents : List String) :
    save_old_lines contents =
      (contents.filter fun line => !(g_ascii_strncasecmp_eq line "set cl.column" 13)).map
        fun line => line ++ "\n" := by
  induction contents with
  | nil => rfl
  | cons line rest ih =>
    by_cases h : g_ascii_strncasecmp_eq line "set cl.column" 13 = true
    · simp [save_old_lines, h, ih]
    · simp [save_old_lines, h, ih]

/-- The scenario of the specification for creation: catalog `A, B, C` with the
active column `B` gives `B` (enabled), `A`, `C` (disabled). -/
theorem create_scenario_active_b :
    (column_select_create catalog_abc { columns := [column_abc 1] }).map
        (fun info => info.items.map fun item => (item_userptr item, item_enabled item))
      = some [("B", true), ("A", false), ("C", false)] := by
  decide

/-- The scenario of the specification for save holds when the prior file does
not end with a newline. -/
theorem save_scenario_without_final_newline :
    String.join (save_written env_home (some "set cl.column0 B\nset other.opt 5") items_bca) =
      "set other.opt 5\nset cl.column0 B\nset cl.column1 C\n" := by
  decide

/-- C4: the target `5` on a list of three items is neither `item_count` nor
negative, so the guard of `column_select_move_item` lets it pass and the swap
reads `info->items[5]`, which is no entry of the list: the call is not the
no-op on the item list that the guard is there for, whether the menu is
posted or not.  (The two guarded cases are `move_item_guard`.) -/
theorem move_item_target_beyond_count :
    column_select_move_item true items_abc item_a 5 = none ∧
    column_select_move_item true items_abc item_a 5 ≠ some items_abc ∧
    column_select_move_item false items_abc item_a 5 = none ∧
    column_select_move_item false items_abc item_a 5 ≠ some items_abc := by
  decide

/-- C7, counterexample: on a posted menu the first toggle of the item at
position `1` puts a new item there that the refused `set_menu_items` leaves
unconnected; toggling the item now at position `1` writes
`info->items[item_index (item)]` with `item_index (item) = ERR`, outside the
list, and does not give back the original list. -/
theorem toggle_twice_on_posted_menu :
    column_select_toggle_item true items_abc item_b =
      some [item_a,
        { name := "[ ]", description := "Attribute B", userptr := "B", index := ERR },
        item_c] ∧
    column_select_toggle_item true
        [item_a,
          { name := "[ ]", description := "Attribute B", userptr := "B", index := ERR },
          item_c]
        { name := "[ ]", description := "Attribute B", userptr := "B", index := ERR }
      = none ∧
    column_select_toggle_item true
        [item_a,
          { name := "[ ]", description := "Attribute B", userptr := "B", index := ERR },
          item_c]
        { name := "[ ]", description := "Attribute B", userptr := "B", index := ERR }
      ≠ some items_abc := by
  decide

/-- C8, counterexample: on a posted menu the first move of the item at
position `0` to position `2` exchanges `A` and `C`, which keep their old
indices; moving the item now at position `0` (it is `C`, with index `2`) to
position `2` once more overwrites position `2` and gives `C, B, C`, not the
original list. -/
theorem move_twice_on_posted_menu :
    column_select_move_item true items_abc item_a 2 = some [item_c, item_b, item_a] ∧
    column_select_move_item true [item_c, item_b, item_a] item_c 2 =
      some [item_c, item_b, item_c] ∧
    column_select_move_item true [item_c, item_b, item_a] item_c 2 ≠ some items_abc := by
  decide

/-- C2, counterexample: with catalog `A, B, C` and the single active column
`C`, creation swaps `C` with `A`, so the item list is `C` (enabled), `B`,
`A` (disabled); the order the claim states is `C`, `A`, `B`. -/
theorem create_rest_not_in_catalog_order :
    (column_select_create catalog_abc { columns := [column_abc 2] }).map
        (fun info => info.items.map fun item => (item_userptr item, item_enabled item))
      = some [("C", true), ("B", false), ("A", false)] ∧
    spec_open_order catalog_abc ["C"] = [("C", true), ("A", false), ("B", false)] ∧
    (column_select_create catalog_abc { columns := [column_abc 2] }).map
        (fun info => info.items.map fun item => (item_userptr item, item_enabled item))
      ≠ some (spec_open_order catalog_abc ["C"]) := by
  decide

/-- C5, counterexample: with the item list `A` (disabled), `B`, `C` (enabled)
the lines written carry the indices `1` and `2`, the positions in the item
list, where the claim states `0` and `1`, the positions in the selection. -/
theorem save_column_lines_not_selection_index :
    save_column_lines 0 items_abc = ["set cl.column1 B\n", "set cl.column2 C\n"] ∧
    spec_column_lines items_abc = ["set cl.column0 B\n", "set cl.column1 C\n"] ∧
    save_column_lines 0 items_abc ≠ spec_column_lines items_abc := by
  decide

/-- C6: the prior file holds the two lines `set cl.column0 B` and
`set other.opt 5`, each closed by a newline, and the selection is `B, C`.
The file written has four lines: between `set other.opt 5` and the two
directive lines stands an empty line that the prior file did not have. -/
theorem save_columns_adds_blank_line :
    (column_select_save_columns env_home files_prior items_bca).1 "/home/user/.sngreprc" =
      some "set other.opt 5\n\nset cl.column0 B\nset cl.column1 C\n" ∧
    (column_select_save_columns env_home files_prior items_bca).1 "/home/user/.sngreprc.old" =
      some "set cl.column0 B\nset other.opt 5\n" := by
  decide

/-! ## Instances of the theorems with hypotheses -/

theorem toggle_item_frame_witness :
    menu_connected items_abc ∧ items_abc[1]? = some item_b ∧
    ∃ items' item',
      column_select_toggle_item true items_abc item_b = some items' ∧
      items'.length = items_abc.length ∧
      items'[1]? = some item' ∧
      item_userptr item' = item_userptr item_b ∧
      item_description item' = item_description item_b ∧
      item_enabled item' = !item_enabled item_b ∧
      (∀ k, k ≠ 1 → items'[k]? = items_abc[k]?) ∧
      (true = false → column_select_update_menu items' = items') ∧
      menu_connected (column_select_update_menu items') ∧
      ∃ item1 items'',
        (column_select_update_menu items')[1]? = some item1 ∧
        column_select_toggle_item true (column_select_update_menu items') item1
          = some items'' ∧
        items''.map item_view = items_abc.map item_view ∧
        (true = false → column_select_update_menu items'' = items'') ∧
        (item_marked item_b → column_select_update_menu items'' = items_abc) :=
  ⟨by decide, by decide, toggle_item_frame true items_abc 1 item_b (by decide) (by decide)⟩

theorem move_item_swap_involution_witness :
    menu_connected items_abc ∧ items_abc[0]? = some item_a ∧ items_abc[2]? = some item_c ∧
    ∃ items',
      column_select_move_item true items_abc item_a ((2 : Nat) : Int) = some items' ∧
      items'.length = items_abc.length ∧
      items'[0]? = some (if true then item_c else { item_c with index := ((0 : Nat) : Int) }) ∧
      items'[2]? = some (if true then item_a else { item_a with index := ((2 : Nat) : Int) }) ∧
      (∀ k, k ≠ 0 → k ≠ 2 → items'[k]? = items_abc[k]?) ∧
      (items'.map item_view).Perm (items_abc.map item_view) ∧
      (0 = 2 → items' = items_abc) ∧
      (true = false → column_select_update_menu items' = items') ∧
      menu_connected (column_select_update_menu items') ∧
      (column_select_update_menu items')[0]? =
        some { item_c with index := ((0 : Nat) : Int) } ∧
      ∃ items'',
        column_select_move_item true (column_select_update_menu items')
            { item_c with index := ((0 : Nat) : Int) } ((2 : Nat) : Int) = some items'' ∧
        (true = false → column_select_update_menu items'' = items'') ∧
        column_select_update_menu items'' = items_abc :=
  ⟨by decide, by decide, by decide,
    move_item_swap_involution true items_abc 0 2 item_a item_c (by decide) (by decide)
      (by decide)⟩

theorem catalog_abc_columns_ok :
    ∀ col ∈ [column_abc 2, column_abc 0],
      ∃ id : Nat, id < catalog_abc.SIP_ATTR_COUNT ∧ sip_attr_get_name catalog_abc id = col.attr := by
  intro col hcol
  simp only [List.mem_cons, List.mem_singleton, List.not_mem_nil, or_false] at hcol
  rcases hcol with h | h
  · exact ⟨2, by decide, by rw [h]; decide⟩
  · exact ⟨0, by decide, by rw [h]; decide⟩

theorem catalog_abc_lookup_ok :
    ∀ id : Nat, id < catalog_abc.SIP_ATTR_COUNT →
      sip_attr_get_name catalog_abc
          (sip_attr_from_name catalog_abc (sip_attr_get_name catalog_abc id)) =
        sip_attr_get_name catalog_abc id := by
  intro id hid
  have h3 : id < 3 := hid
  have : id = 0 ∨ id = 1 ∨ id = 2 := by omega
  rcases this with h | h | h <;> subst h <;> decide

theorem create_active_in_front_witness :
    ∃ info front rest,
      column_select_create catalog_abc { columns := [column_abc 2, column_abc 0] } = some info ∧
      info.items = front ++ rest ∧
      front.length = CallListInfo.columncnt { columns := [column_abc 2, column_abc 0] } ∧
      front.map item_userptr = [column_abc 2, column_abc 0].map (fun col => col.attr) ∧
      (∀ item ∈ front, item_enabled item = true) ∧
      (∀ item ∈ rest, item_enabled item = false) ∧
      (front.map item_attribute ++ rest.map item_attribute).Perm
        (catalog_attributes catalog_abc) :=
  create_active_in_front catalog_abc { columns := [column_abc 2, column_abc 0] } (by decide)
    catalog_abc_columns_ok

theorem create_items_permutation_witness :
    ∃ info,
      column_select_create catalog_abc { columns := [column_abc 2, column_abc 0] } = some info ∧
      item_count info.items = catalog_abc.SIP_ATTR_COUNT ∧
      (info.items.map item_attribute).Perm (catalog_attributes catalog_abc) ∧
      (((catalog_attributes catalog_abc).map Prod.fst).Nodup →
        (info.items.map item_userptr).Nodup) :=
  create_items_permutation catalog_abc { columns := [column_abc 2, column_abc 0] } (by decide)
    catalog_abc_columns_ok

theorem create_then_update_columns_same_witness :
    ∃ info,
      column_select_create catalog_abc { columns := [column_abc 2, column_abc 0] } = some info ∧
      (column_select_update_columns catalog_abc info.items
          { columns := [column_abc 2, column_abc 0] }).columns.map (fun col => col.attr)
        = [column_abc 2, column_abc 0].map (fun col => col.attr) ∧
      (column_select_update_columns catalog_abc info.items
          { columns := [column_abc 2, column_abc 0] }).columncnt
        = CallListInfo.columncnt { columns := [column_abc 2, column_abc 0] } :=
  create_then_update_columns_same catalog_abc { columns := [column_abc 2, column_abc 0] }
    (by decide) catalog_abc_columns_ok catalog_abc_lookup_ok

theorem handle_key_form_focus_cycle_witness :
    panel_on_cancel.form_active = true ∧
    (panel_on_cancel.field_idx = FLD_COLUMNS_ACCEPT ∨
      panel_on_cancel.field_idx = FLD_COLUMNS_SAVE ∨
      panel_on_cancel.field_idx = FLD_COLUMNS_CANCEL) ∧
    (∀ a ∈ [KeyAction.ACTION_OTHER 7], form_handles a = false) ∧
    form_handles .ACTION_RIGHT = true ∧
    (((KeyAction.ACTION_RIGHT = .ACTION_RIGHT ∨ KeyAction.ACTION_RIGHT = .ACTION_NEXT_FIELD) →
      ∃ info',
        column_select_handle_key_form catalog_abc env_home panel_on_cancel world_abc
            ([.ACTION_OTHER 7] ++ .ACTION_RIGHT :: [.ACTION_SELECT]) =
          { info := some info', world := world_abc, handled := true } ∧
        info'.items = panel_on_cancel.items ∧
        (panel_on_cancel.field_idx = FLD_COLUMNS_ACCEPT →
          info'.field_idx = FLD_COLUMNS_SAVE ∧ info'.form_active = true) ∧
        (panel_on_cancel.field_idx = FLD_COLUMNS_SAVE →
          info'.field_idx = FLD_COLUMNS_CANCEL ∧ info'.form_active = true) ∧
        (panel_on_cancel.field_idx = FLD_COLUMNS_CANCEL →
          info'.field_idx = FLD_COLUMNS_ACCEPT ∧ info'.form_active = false)) ∧
    ((KeyAction.ACTION_RIGHT = .ACTION_LEFT ∨ KeyAction.ACTION_RIGHT = .ACTION_PREV_FIELD) →
      ∃ info',
        column_select_handle_key_form catalog_abc env_home panel_on_cancel world_abc
            ([.ACTION_OTHER 7] ++ .ACTION_RIGHT :: [.ACTION_SELECT]) =
          { info := some info', world := world_abc, handled := true } ∧
        info'.items = panel_on_cancel.items ∧
        info'.form_active = true ∧
        (panel_on_cancel.field_idx = FLD_COLUMNS_ACCEPT →
          info'.field_idx = FLD_COLUMNS_CANCEL) ∧
        (panel_on_cancel.field_idx = FLD_COLUMNS_SAVE →
          info'.field_idx = FLD_COLUMNS_ACCEPT) ∧
        (panel_on_cancel.field_idx = FLD_COLUMNS_CANCEL →
          info'.field_idx = FLD_COLUMNS_SAVE)) ∧
    ((KeyAction.ACTION_RIGHT = .ACTION_SELECT ∨ KeyAction.ACTION_RIGHT = .ACTION_CONFIRM) →
      (column_select_handle_key_form catalog_abc env_home panel_on_cancel world_abc
        ([.ACTION_OTHER 7] ++ .ACTION_RIGHT :: [.ACTION_SELECT])).info = none) ∧
    column_select_handle_key_form catalog_abc env_home panel_on_cancel world_abc
        [.ACTION_OTHER 7] =
      { info := some panel_on_cancel, world := world_abc, handled := false } ∧
    (∀ info',
      (column_select_handle_key_form catalog_abc env_home panel_on_cancel world_abc
          ([.ACTION_OTHER 7] ++ .ACTION_RIGHT :: [.ACTION_SELECT])).info = some info' →
        (info'.form_active = false ↔
          (KeyAction.ACTION_RIGHT = .ACTION_RIGHT ∨
              KeyAction.ACTION_RIGHT = .ACTION_NEXT_FIELD) ∧
            panel_on_cancel.field_idx = FLD_COLUMNS_CANCEL ∧
            info'.field_idx = FLD_COLUMNS_ACCEPT))) :=
  ⟨by decide, by decide, by decide, by decide,
    handle_key_form_focus_cycle catalog_abc env_home panel_on_cancel world_abc
      [.ACTION_OTHER 7] [.ACTION_SELECT] .ACTION_RIGHT (by decide) (by decide) (by decide)
      (by decide)⟩

/-- The two scenarios of the button form: `ACTION_RIGHT` on Cancel gives focus
Accept and leaves the form; `ACTION_LEFT` on Accept gives focus Cancel and
stays in the form. -/
theorem handle_key_form_scenarios :
    (column_select_handle_key_form catalog_abc env_home panel_on_cancel world_abc
        [.ACTION_RIGHT]).info =
      some { items := items_abc, form_active := false, field_idx := FLD_COLUMNS_ACCEPT } ∧
    (column_select_handle_key_form catalog_abc env_home
        { panel_on_cancel with field_idx := FLD_COLUMNS_ACCEPT } world_abc [.ACTION_LEFT]).info =
      some { items := items_abc, form_active := true, field_idx := FLD_COLUMNS_CANCEL } := by
  decide

end ColumnSelect
